import Mathlib

/-!
Verification of the verse-fetch-and-normalize pipeline in
`Scripts/fetch_quran_data.py`.

Strings are modelled as lists of Unicode code points (`List Nat`),
matching Python's view of a `str` as a sequence of code points.
-/

/-- Code points of a Lean string literal, used to write concrete test inputs. -/
def strToCodes (s : String) : List Nat :=
  s.data.map Char.toNat

/-- Embedding of `fix_diacritic_order` (fetch_quran_data.py, lines 87-107):
a single left-to-right scan; when the current character is SHADDA (U+0651)
and the next is KASRA (U+0650) they are swapped and the cursor advances two
positions, otherwise it advances one.  The `while i < len(chars) - 1` loop
becomes recursion that stops on lists of length below two. -/
def fix_diacritic_order : List Nat → List Nat
  | a :: b :: rest =>
    if a = 0x651 ∧ b = 0x650 then
      0x650 :: 0x651 :: fix_diacritic_order rest
    else
      a :: fix_diacritic_order (b :: rest)
  | l => l

theorem fix_diacritic_order_swap (rest : List Nat) :
    fix_diacritic_order (0x651 :: 0x650 :: rest) =
      0x650 :: 0x651 :: fix_diacritic_order rest := by
  simp [fix_diacritic_order]

theorem fix_diacritic_order_no_swap (a b : Nat) (rest : List Nat)
    (h : ¬ (a = 0x651 ∧ b = 0x650)) :
    fix_diacritic_order (a :: b :: rest) = a :: fix_diacritic_order (b :: rest) := by
  simp [fix_diacritic_order, h]

theorem fix_diacritic_order_perm (l : List Nat) :
    List.Perm (fix_diacritic_order l) l := by
  have H : ∀ n (l : List Nat), l.length ≤ n → List.Perm (fix_diacritic_order l) l := by
    intro n
    induction n with
    | zero =>
      intro l h
      have : l = [] := List.eq_nil_of_length_eq_zero (Nat.le_zero.mp h)
      subst this
      simp [fix_diacritic_order]
    | succ n ih =>
      intro l h
      match l with
      | [] => simp [fix_diacritic_order]
      | [a] => simp [fix_diacritic_order]
      | a :: b :: rest =>
        by_cases hc : a = 0x651 ∧ b = 0x650
        · obtain ⟨ha, hb⟩ := hc
          subst ha; subst hb
          rw [fix_diacritic_order_swap]
          have hrest : rest.length ≤ n := by
            simp only [List.length_cons] at h
            omega
          exact ((ih rest hrest).cons 0x651 |>.cons 0x650).trans
            (List.Perm.swap 0x651 0x650 rest)
        · rw [fix_diacritic_order_no_swap a b rest hc]
          have htail : (b :: rest).length ≤ n := by
            simp only [List.length_cons] at h
            simp only [List.length_cons]
            omega
          exact (ih (b :: rest) htail).cons a
  exact H l.length l (Nat.le_refl _)

/-- C1: the Diacritic Normalizer is the single left-to-right scan that
rewrites each SHADDA,KASRA pair as KASRA,SHADDA and advances two positions
after a swap and one otherwise; on SHADDA,KASRA,KASRA only the first pair is
swapped and the trailing KASRA is untouched, and the empty string maps to
itself. -/
theorem diacritic_single_pass_scan :
    (∀ rest : List Nat,
        fix_diacritic_order (0x651 :: 0x650 :: rest) =
          0x650 :: 0x651 :: fix_diacritic_order rest)
    ∧ (∀ (a b : Nat) (rest : List Nat), ¬ (a = 0x651 ∧ b = 0x650) →
        fix_diacritic_order (a :: b :: rest) = a :: fix_diacritic_order (b :: rest))
    ∧ fix_diacritic_order [0x651, 0x650, 0x650] = [0x650, 0x651, 0x650]
    ∧ fix_diacritic_order [] = [] :=
  ⟨fix_diacritic_order_swap, fix_diacritic_order_no_swap, by decide, rfl⟩

theorem diacritic_single_pass_scan_witness :
    fix_diacritic_order [0x30, 0x31] = 0x30 :: fix_diacritic_order [0x31] :=
  diacritic_single_pass_scan.2.1 0x30 0x31 [] (by decide)

/-- Whitespace set of Python's `str.strip()` (Unicode whitespace). -/
def pyIsSpace (c : Nat) : Bool :=
  c == 0x09 || c == 0x0A || c == 0x0B || c == 0x0C || c == 0x0D ||
  c == 0x1C || c == 0x1D || c == 0x1E || c == 0x1F || c == 0x20 ||
  c == 0x85 || c == 0xA0 || c == 0x1680 ||
  (0x2000 ≤ c && c ≤ 0x200A) ||
  c == 0x2028 || c == 0x2029 || c == 0x202F || c == 0x205F || c == 0x3000

/-- Python `text.strip()`: drop whitespace from both ends. -/
def pyStrip (l : List Nat) : List Nat :=
  ((l.dropWhile pyIsSpace).reverse.dropWhile pyIsSpace).reverse

/-- Code points of the literal header of the footnote pattern. -/
def headerCodes : List Nat := strToCodes "<sup foot_note="

/-- Code points of the literal closing tag of the footnote pattern. -/
def closeSupCodes : List Nat := strToCodes "</sup>"

/-- Consume characters up to and including the first GREATER-THAN SIGN,
the unique way `[^>]*>` can match; `none` when no such sign remains. -/
def dropAttr : List Nat → Option (List Nat)
  | [] => none
  | c :: rest => if c = 0x3E then some rest else dropAttr rest

/-- Non-greedy tail of the footnote pattern: the shortest run of characters
other than LINE FEED (the `.` of a Python regex does not match a newline)
followed by the literal closing tag; returns what follows the closing tag. -/
def matchCloseSup : List Nat → Option (List Nat)
  | [] => none
  | c :: rest =>
    if closeSupCodes.isPrefixOf (c :: rest) then
      some ((c :: rest).drop closeSupCodes.length)
    else if c = 0x0A then none
    else matchCloseSup rest

/-- Match of the regex `<sup foot_note=[^>]*>.*?</sup>` anchored at the start
of the list; on success returns the remainder after the match. -/
def matchFootnoteAt (l : List Nat) : Option (List Nat) :=
  if headerCodes.isPrefixOf l then
    match dropAttr (l.drop headerCodes.length) with
    | some afterGt => matchCloseSup afterGt
    | none => none
  else none

/-- Match of the regex `<[^>]+>` anchored at the start of the list: a LESS-THAN
SIGN, at least one character other than GREATER-THAN SIGN, then everything up
to and including the first GREATER-THAN SIGN. -/
def matchTagAt : List Nat → Option (List Nat)
  | c :: d :: rest =>
    if c = 0x3C ∧ d ≠ 0x3E then dropAttr (d :: rest) else none
  | _ => none

/-- Left-to-right non-overlapping removal of footnote-pattern matches,
the scan of `re.sub` with an empty replacement string.  The fuel only bounds the
recursion; each step consumes at least one character, so fuel equal to the
input length (as supplied by `subFootnotes`) is never exhausted. -/
def subFootnotesFuel : Nat → List Nat → List Nat
  | 0, l => l
  | _ + 1, [] => []
  | fuel + 1, c :: rest =>
    match matchFootnoteAt (c :: rest) with
    | some remainder => subFootnotesFuel fuel remainder
    | none => c :: subFootnotesFuel fuel rest

/-- `re.sub` with the footnote pattern and an empty replacement
(fetch_quran_data.py, line 81). -/
def subFootnotes (l : List Nat) : List Nat :=
  subFootnotesFuel l.length l

/-- Left-to-right non-overlapping removal of `<[^>]+>` matches; fuel as in
`subFootnotesFuel`. -/
def subTagsFuel : Nat → List Nat → List Nat
  | 0, l => l
  | _ + 1, [] => []
  | fuel + 1, c :: rest =>
    match matchTagAt (c :: rest) with
    | some remainder => subTagsFuel fuel remainder
    | none => c :: subTagsFuel fuel rest

/-- `re.sub` with the generic tag pattern and an empty replacement
(fetch_quran_data.py, line 83). -/
def subTags (l : List Nat) : List Nat :=
  subTagsFuel l.length l

/-- Embedding of `clean_html_tags` (fetch_quran_data.py, lines 70-84):
remove footnote spans, then remaining tags, then strip. -/
def clean_html_tags (text : List Nat) : List Nat :=
  pyStrip (subTags (subFootnotes text))

theorem matchFootnoteAt_none_of_no_lt {c : Nat} {rest : List Nat}
    (h : ¬ 0x3C ∈ c :: rest) : matchFootnoteAt (c :: rest) = none := by
  have hc : c ≠ 0x3C := fun he => h (he ▸ List.mem_cons_self c rest)
  unfold matchFootnoteAt
  have : headerCodes.isPrefixOf (c :: rest) = false := by
    simp only [headerCodes, strToCodes]
    simp [List.isPrefixOf, String.data]
    intro hce
    exact (hc hce.symm).elim
  simp [this]

theorem matchTagAt_none_of_no_lt {c : Nat} {rest : List Nat}
    (h : ¬ 0x3C ∈ c :: rest) : matchTagAt (c :: rest) = none := by
  have hc : c ≠ 0x3C := fun he => h (he ▸ List.mem_cons_self c rest)
  match rest with
  | [] => rfl
  | d :: rest2 =>
    unfold matchTagAt
    have : ¬ (c = 0x3C ∧ d ≠ 0x3E) := fun hx => hc hx.1
    simp [this]

theorem subFootnotesFuel_id_of_no_lt :
    ∀ (fuel : Nat) (l : List Nat), ¬ 0x3C ∈ l → subFootnotesFuel fuel l = l := by
  intro fuel
  induction fuel with
  | zero => intro l _; rfl
  | succ fuel ih =>
    intro l h
    match l with
    | [] => rfl
    | c :: rest =>
      unfold subFootnotesFuel
      rw [matchFootnoteAt_none_of_no_lt h]
      have : ¬ 0x3C ∈ rest := fun hm => h (List.mem_cons_of_mem c hm)
      rw [ih rest this]

theorem subTagsFuel_id_of_no_lt :
    ∀ (fuel : Nat) (l : List Nat), ¬ 0x3C ∈ l → subTagsFuel fuel l = l := by
  intro fuel
  induction fuel with
  | zero => intro l _; rfl
  | succ fuel ih =>
    intro l h
    match l with
    | [] => rfl
    | c :: rest =>
      unfold subTagsFuel
      rw [matchTagAt_none_of_no_lt h]
      have : ¬ 0x3C ∈ rest := fun hm => h (List.mem_cons_of_mem c hm)
      rw [ih rest this]

/-- C4: the Markup Stripper removes footnote spans whole, then remaining
tags, then trims; the footnote example maps to "helloworld", the empty string
maps to itself, and a string with no tags comes back unchanged apart from
trimming. -/
theorem markup_stripper_pipeline :
    clean_html_tags (strToCodes "<sup foot_note=\"x\">note</sup>hello<b>world</b>")
      = strToCodes "helloworld"
    ∧ clean_html_tags [] = []
    ∧ (∀ l : List Nat, ¬ 0x3C ∈ l → clean_html_tags l = pyStrip l)
    ∧ (∀ l : List Nat, clean_html_tags l = pyStrip (subTags (subFootnotes l))) := by
  refine ⟨by decide, rfl, ?_, fun l => rfl⟩
  intro l h
  unfold clean_html_tags subTags subFootnotes
  rw [subFootnotesFuel_id_of_no_lt l.length l h]
  rw [subTagsFuel_id_of_no_lt l.length l h]

theorem markup_stripper_pipeline_witness :
    clean_html_tags (strToCodes " abc ") = pyStrip (strToCodes " abc ") :=
  markup_stripper_pipeline.2.2.1 (strToCodes " abc ") (by decide)

/-- C6: the Diacritic Normalizer is not idempotent: on SHADDA,SHADDA,KASRA the
first pass swaps the second pair, creating a new SHADDA,KASRA pair across the
swap boundary that only a second application rewrites. -/
theorem diacritic_not_idempotent :
    (∃ l : List Nat,
        fix_diacritic_order (fix_diacritic_order l) ≠ fix_diacritic_order l)
    ∧ fix_diacritic_order [0x651, 0x651, 0x650] = [0x651, 0x650, 0x651]
    ∧ fix_diacritic_order [0x651, 0x650, 0x651] = [0x650, 0x651, 0x651] :=
  ⟨⟨[0x651, 0x651, 0x650], by decide⟩, by decide, by decide⟩

/-- C10: the Diacritic Normalizer preserves length and the multiset of code
points: its output is a permutation of its input. -/
theorem diacritic_length_and_perm :
    ∀ l : List Nat,
      (fix_diacritic_order l).length = l.length
      ∧ List.Perm (fix_diacritic_order l) l :=
  fun l => ⟨(fix_diacritic_order_perm l).length_eq, fix_diacritic_order_perm l⟩

/-- JSON object of the Arabic endpoint's verses array: `verse_key` and
`text_uthmani` are read with `.get(key, chr(34) * 2)`, so each is optional. -/
structure ArabicVerse where
  verse_key : Option (List Nat)
  text_uthmani : Option (List Nat)
deriving DecidableEq

/-- JSON object of a translation endpoint's list: only `text` is read,
with an empty-string default. -/
structure TransItem where
  text : Option (List Nat)
deriving DecidableEq

/-- Body of the Arabic endpoint response; `verses` is read with a
list default (`arabic_data.get("verses", [])`). -/
structure ArabicData where
  verses : Option (List ArabicVerse)
deriving DecidableEq

/-- Body of a translation endpoint response; `translations` is read with a
list default. -/
structure TransData where
  translations : Option (List TransItem)
deriving DecidableEq

/-- One element of the `verses` array assembled by `fetch_surah_verses`. -/
structure Verse where
  number : Int
  textArabic : List Nat
  textTransliteration : List Nat
  translationEnglish : List Nat
  translationIndonesian : List Nat
deriving DecidableEq

/-- Outcomes of the three network calls made for one surah.  An `error`
stands for a transport failure or a non-2xx status (`raise_for_status`);
an `ok` carries the decoded JSON body. -/
structure FetchEnv where
  arabic : Except Unit ArabicData
  english : Except Unit TransData
  indonesian : Except Unit TransData

/-- Python `s.split(":")[-1]`: the segment after the last COLON
(the whole string when no colon occurs). -/
def afterLastColon (l : List Nat) : List Nat :=
  (l.reverse.takeWhile (fun c => c != 0x3A)).reverse

/-- Decimal digits accumulated left to right, allowing a single underscore
between digits as Python's `int` does. -/
def digitsRest : Nat → List Nat → Option Nat
  | acc, [] => some acc
  | acc, c :: rest =>
    if 0x30 ≤ c ∧ c ≤ 0x39 then digitsRest (10 * acc + (c - 0x30)) rest
    else if c = 0x5F then
      match rest with
      | d :: rest2 =>
        if 0x30 ≤ d ∧ d ≤ 0x39 then digitsRest (10 * acc + (d - 0x30)) rest2
        else none
      | [] => none
    else none

/-- A nonempty ASCII digit sequence, underscores permitted between digits. -/
def parseUnsigned : List Nat → Option Nat
  | [] => none
  | c :: rest =>
    if 0x30 ≤ c ∧ c ≤ 0x39 then digitsRest (c - 0x30) rest else none

/-- Python `int(s)` for a decimal string: surrounding whitespace, an optional
sign, then digits; `none` models the `ValueError` it raises otherwise. -/
def pyInt (l : List Nat) : Option Int :=
  let trimmed := ((l.dropWhile pyIsSpace).reverse.dropWhile pyIsSpace).reverse
  match trimmed with
  | [] => none
  | c :: rest =>
    if c = 0x2B then (parseUnsigned rest).map Int.ofNat
    else if c = 0x2D then (parseUnsigned rest).map (fun n => -(n : Int))
    else (parseUnsigned trimmed).map Int.ofNat

/-- Verse-number computation of fetch_quran_data.py, lines 156-157:
`int(verse_key.split(":")[-1]) if ":" in verse_key else i + 1`, where `i` is
the 0-based `enumerate` index.  An `error` models the `ValueError` raised by
`int` on a malformed trailing component, which the surrounding `try` turns
into the whole-surah failure path. -/
def verseNumberOf (verse_key : List Nat) (i : Nat) : Except Unit Int :=
  if 0x3A ∈ verse_key then
    match pyInt (afterLastColon verse_key) with
    | some n => Except.ok n
    | none => Except.error ()
  else Except.ok (Int.ofNat (i + 1))

/-- One iteration of the verse loop (fetch_quran_data.py, lines 154-178):
verse number from the composite key, positionally aligned translations with
an empty-string default past the end of a translation list, markup stripped
from translations, diacritics reordered in the Arabic text, transliteration
always empty. -/
def mkVerse (i : Nat) (av : ArabicVerse) (evs ivs : List TransItem) :
    Except Unit Verse :=
  match verseNumberOf (av.verse_key.getD []) i with
  | Except.error e => Except.error e
  | Except.ok num =>
    let english_text := if h : i < evs.length then (evs.get ⟨i, h⟩).text.getD [] else []
    let indonesian_text := if h : i < ivs.length then (ivs.get ⟨i, h⟩).text.getD [] else []
    Except.ok
      { number := num
        textArabic := fix_diacritic_order (av.text_uthmani.getD [])
        textTransliteration := []
        translationEnglish := clean_html_tags english_text
        translationIndonesian := clean_html_tags indonesian_text }

/-- The verse loop over `enumerate(arabic_verses)` starting at index `i`;
an exception in any iteration aborts the whole loop, as in the source's
single `try` block. -/
def buildVersesFrom (i : Nat) (avs : List ArabicVerse) (evs ivs : List TransItem) :
    Except Unit (List Verse) :=
  match avs with
  | [] => Except.ok []
  | av :: rest =>
    match mkVerse i av evs ivs with
    | Except.error e => Except.error e
    | Except.ok v =>
      match buildVersesFrom (i + 1) rest evs ivs with
      | Except.error e => Except.error e
      | Except.ok vs => Except.ok (v :: vs)

/-- Body of the `try` block of `fetch_surah_verses` (lines 120-181): the
three network calls in order, then the verse loop. -/
def surahTry (env : FetchEnv) : Except Unit (List Verse) :=
  match env.arabic with
  | Except.error e => Except.error e
  | Except.ok arabic_data =>
    match env.english with
    | Except.error e => Except.error e
    | Except.ok english_data =>
      match env.indonesian with
      | Except.error e => Except.error e
      | Except.ok indonesian_data =>
        buildVersesFrom 0 (arabic_data.verses.getD [])
          (english_data.translations.getD []) (indonesian_data.translations.getD [])

/-- Embedding of `fetch_surah_verses` (fetch_quran_data.py, lines 110-190):
the `except` clauses map every failure of the `try` block to an empty verse
list, so the function is total and never propagates an exception. -/
def fetch_surah_verses (env : FetchEnv) : List Verse :=
  match surahTry env with
  | Except.ok verses => verses
  | Except.error _ => []

/-- One row of the `SURAH_METADATA` dict (fetch_quran_data.py, lines 29-67). -/
structure SurahMeta where
  name : String
  transliteration : String
  translation : String
  ayahs : Nat
  revelation : String
deriving DecidableEq

/-- The static `SURAH_METADATA` table keyed by surah number; `none` models a
key miss, which in Python raises `KeyError`. -/
def SURAH_METADATA : Nat → Option SurahMeta
  | 78 => some ⟨"النبإ", "An-Naba'", "The Tidings", 40, "Makkah"⟩
  | 79 => some ⟨"النازعات", "An-Nazi'at", "Those Who Pull Out", 46, "Makkah"⟩
  | 80 => some ⟨"عبس", "'Abasa", "He Frowned", 42, "Makkah"⟩
  | 81 => some ⟨"التكوير", "At-Takwir", "The Overthrowing", 29, "Makkah"⟩
  | 82 => some ⟨"الانفطار", "Al-Infitar", "The Cleaving", 19, "Makkah"⟩
  | 83 => some ⟨"المطففين", "Al-Mutaffifin", "The Defrauding", 36, "Makkah"⟩
  | 84 => some ⟨"الانشقاق", "Al-Inshiqaq", "The Splitting Asunder", 25, "Makkah"⟩
  | 85 => some ⟨"البروج", "Al-Buruj", "The Stars", 22, "Makkah"⟩
  | 86 => some ⟨"الطارق", "At-Tariq", "The Nightcomer", 17, "Makkah"⟩
  | 87 => some ⟨"الأعلى", "Al-A'la", "The Most High", 19, "Makkah"⟩
  | 88 => some ⟨"الغاشية", "Al-Ghashiyah", "The Overwhelming", 26, "Makkah"⟩
  | 89 => some ⟨"الفجر", "Al-Fajr", "The Dawn", 30, "Makkah"⟩
  | 90 => some ⟨"البلد", "Al-Balad", "The City", 20, "Makkah"⟩
  | 91 => some ⟨"الشمس", "Ash-Shams", "The Sun", 15, "Makkah"⟩
  | 92 => some ⟨"الليل", "Al-Layl", "The Night", 21, "Makkah"⟩
  | 93 => some ⟨"الضحى", "Ad-Duha", "The Forenoon", 11, "Makkah"⟩
  | 94 => some ⟨"الشرح", "Ash-Sharh", "The Opening Forth", 8, "Makkah"⟩
  | 95 => some ⟨"التين", "At-Tin", "The Fig", 8, "Makkah"⟩
  | 96 => some ⟨"العلق", "Al-'Alaq", "The Clot", 19, "Makkah"⟩
  | 97 => some ⟨"القدر", "Al-Qadar", "The Night of Decree", 5, "Makkah"⟩
  | 98 => some ⟨"البينة", "Al-Bayyinah", "The Clear Evidence", 8, "Madinah"⟩
  | 99 => some ⟨"الزلزلة", "Az-Zalzalah", "The Earthquake", 8, "Madinah"⟩
  | 100 => some ⟨"العاديات", "Al-'Adiyat", "The Courser", 11, "Makkah"⟩
  | 101 => some ⟨"القارعة", "Al-Qari'ah", "The Striking Hour", 11, "Makkah"⟩
  | 102 => some ⟨"التكاثر", "At-Takathur", "The Rivalry in World Increase", 8, "Makkah"⟩
  | 103 => some ⟨"العصر", "Al-'Asr", "The Time", 3, "Makkah"⟩
  | 104 => some ⟨"الهمزة", "Al-Humazah", "The Slanderer", 9, "Makkah"⟩
  | 105 => some ⟨"الفيل", "Al-Fil", "The Elephant", 5, "Makkah"⟩
  | 106 => some ⟨"قريش", "Quraysh", "Quraysh", 4, "Makkah"⟩
  | 107 => some ⟨"الماعون", "Al-Ma'un", "The Small Kindnesses", 7, "Makkah"⟩
  | 108 => some ⟨"الكوثر", "Al-Kawthar", "The Abundance", 3, "Makkah"⟩
  | 109 => some ⟨"الكافرون", "Al-Kafirun", "The Disbelievers", 6, "Makkah"⟩
  | 110 => some ⟨"النصر", "An-Nasr", "The Help", 3, "Madinah"⟩
  | 111 => some ⟨"المسد", "Al-Masad", "The Palm Fiber", 5, "Makkah"⟩
  | 112 => some ⟨"الإخلاص", "Al-Ikhlas", "The Sincerity", 4, "Makkah"⟩
  | 113 => some ⟨"الفلق", "Al-Falaq", "The Daybreak", 5, "Makkah"⟩
  | 114 => some ⟨"الناس", "An-Nas", "Mankind", 6, "Makkah"⟩
  | _ => none

/-- One element of the `juzAmma` array (fetch_quran_data.py, lines 216-224). -/
structure Surah where
  number : Nat
  nameArabic : String
  nameTransliteration : String
  nameTranslation : String
  ayahCount : Nat
  revelation : String
  ayahs : List Verse
deriving DecidableEq

/-- The surah loop of `generate_juz_amma_data` (lines 207-234) over a list of
surah numbers, generalized over the metadata table and the per-surah fetch so
the `KeyError` branch can be stated: a metadata miss propagates as an
uncaught exception (`error`), aborting the whole run. -/
def assembleSurahs (meta : Nat → Option SurahMeta) (fetch : Nat → List Verse) :
    List Nat → Except Unit (List Surah)
  | [] => Except.ok []
  | n :: rest =>
    match meta n with
    | none => Except.error ()
    | some m =>
      match assembleSurahs meta fetch rest with
      | Except.error e => Except.error e
      | Except.ok tail =>
        Except.ok
          ({ number := n
             nameArabic := m.name
             nameTransliteration := m.transliteration
             nameTranslation := m.translation
             ayahCount := m.ayahs
             revelation := m.revelation
             ayahs := fetch n } :: tail)

/-- Embedding of `generate_juz_amma_data` (fetch_quran_data.py, lines
193-241): `range(78, 115)` drives the loop; the value is the `juzAmma` list
of the returned document. -/
def generate_juz_amma_data (fetch : Nat → List Verse) : Except Unit (List Surah) :=
  assembleSurahs SURAH_METADATA fetch (List.range' 78 37)

theorem mkVerse_ok_fields (i : Nat) (av : ArabicVerse) (evs ivs : List TransItem)
    (v : Verse) (h : mkVerse i av evs ivs = Except.ok v) :
    v.textTransliteration = []
    ∧ (evs.length ≤ i → v.translationEnglish = [])
    ∧ (ivs.length ≤ i → v.translationIndonesian = []) := by
  unfold mkVerse at h
  cases hn : verseNumberOf (av.verse_key.getD []) i with
  | error e => rw [hn] at h; exact Except.noConfusion h
  | ok num =>
    rw [hn] at h
    injection h with h2
    subst h2
    refine ⟨rfl, fun hle => ?_, fun hle => ?_⟩
    · show clean_html_tags
        (if hlt : i < evs.length then (evs.get ⟨i, hlt⟩).text.getD [] else []) = []
      rw [dif_neg (Nat.not_lt.mpr hle)]
      rfl
    · show clean_html_tags
        (if hlt : i < ivs.length then (ivs.get ⟨i, hlt⟩).text.getD [] else []) = []
      rw [dif_neg (Nat.not_lt.mpr hle)]
      rfl

theorem buildVersesFrom_ok_spec :
    ∀ (avs : List ArabicVerse) (i : Nat) (evs ivs : List TransItem) (vs : List Verse),
      buildVersesFrom i avs evs ivs = Except.ok vs →
      vs.length = avs.length
      ∧ (∀ v ∈ vs, v.textTransliteration = [])
      ∧ ∀ (k : Nat) (hk : k < vs.length),
          (evs.length ≤ i + k → (vs.get ⟨k, hk⟩).translationEnglish = [])
          ∧ (ivs.length ≤ i + k → (vs.get ⟨k, hk⟩).translationIndonesian = []) := by
  intro avs
  induction avs with
  | nil =>
    intro i evs ivs vs h
    injection h with h2
    subst h2
    exact ⟨rfl, by simp, fun k hk => absurd hk (by simp)⟩
  | cons av rest ih =>
    intro i evs ivs vs h
    unfold buildVersesFrom at h
    cases hm : mkVerse i av evs ivs with
    | error e => rw [hm] at h; exact Except.noConfusion h
    | ok v0 =>
      rw [hm] at h
      cases hr : buildVersesFrom (i + 1) rest evs ivs with
      | error e => rw [hr] at h; exact Except.noConfusion h
      | ok vs0 =>
        rw [hr] at h
        injection h with h2
        subst h2
        obtain ⟨hlen, hmem, hidx⟩ := ih (i + 1) evs ivs vs0 hr
        obtain ⟨hm1, hm2, hm3⟩ := mkVerse_ok_fields i av evs ivs v0 hm
        refine ⟨by simp [hlen], ?_, ?_⟩
        · intro v hv
          rcases List.mem_cons.mp hv with h0 | h0
          · rw [h0]; exact hm1
          · exact hmem v h0
        · intro k hk
          cases k with
          | zero =>
            exact ⟨fun hle => hm2 (by omega), fun hle => hm3 (by omega)⟩
          | succ k2 =>
            have hk2 : k2 < vs0.length := by
              simp only [List.length_cons] at hk
              omega
            have hi := hidx k2 hk2
            exact ⟨fun hle => hi.1 (by omega), fun hle => hi.2 (by omega)⟩

theorem surahTry_ok_members (env : FetchEnv) (vs : List Verse)
    (h : surahTry env = Except.ok vs) :
    ∀ v ∈ vs, v.textTransliteration = [] := by
  obtain ⟨ea, ee, ei⟩ := env
  cases ea with
  | error e => exact Except.noConfusion h
  | ok ad =>
    cases ee with
    | error e => exact Except.noConfusion h
    | ok ed =>
      cases ei with
      | error e => exact Except.noConfusion h
      | ok idn =>
        have hb : buildVersesFrom 0 (ad.verses.getD [])
            (ed.translations.getD []) (idn.translations.getD []) = Except.ok vs := h
        exact (buildVersesFrom_ok_spec _ _ _ _ _ hb).2.1

theorem buildVersesFrom_error_of_badkey :
    ∀ (avs : List ArabicVerse) (i : Nat) (evs ivs : List TransItem) (av : ArabicVerse),
      av ∈ avs → 0x3A ∈ av.verse_key.getD [] →
      pyInt (afterLastColon (av.verse_key.getD [])) = none →
      buildVersesFrom i avs evs ivs = Except.error () := by
  intro avs
  induction avs with
  | nil =>
    intro i evs ivs av hmem _ _
    exact absurd hmem (List.not_mem_nil av)
  | cons av0 rest ih =>
    intro i evs ivs av hmem hcol hbad
    unfold buildVersesFrom
    rcases List.mem_cons.mp hmem with h0 | h0
    · subst h0
      have hv : verseNumberOf (av.verse_key.getD []) i = Except.error () := by
        unfold verseNumberOf
        rw [if_pos hcol, hbad]
      have hmk : mkVerse i av evs ivs = Except.error () := by
        unfold mkVerse
        rw [hv]
      rw [hmk]
    · cases hm : mkVerse i av0 evs ivs with
      | error e => rfl
      | ok v0 => rw [ih (i + 1) evs ivs av h0 hcol hbad]

theorem assembleSurahs_ok_of_total :
    ∀ (ns : List Nat) (meta : Nat → Option SurahMeta) (fetch : Nat → List Verse),
      (∀ n ∈ ns, (meta n).isSome = true) →
      ∃ l, assembleSurahs meta fetch ns = Except.ok l ∧ l.length = ns.length := by
  intro ns
  induction ns with
  | nil => intro meta fetch _; exact ⟨[], rfl, rfl⟩
  | cons n rest ih =>
    intro meta fetch h
    obtain ⟨m, hm⟩ := Option.isSome_iff_exists.mp (h n (List.mem_cons_self n rest))
    obtain ⟨tail, htail, hlen⟩ :=
      ih meta fetch (fun x hx => h x (List.mem_cons_of_mem n hx))
    refine ⟨{ number := n
              nameArabic := m.name
              nameTransliteration := m.transliteration
              nameTranslation := m.translation
              ayahCount := m.ayahs
              revelation := m.revelation
              ayahs := fetch n } :: tail, ?_, by simp [hlen]⟩
    unfold assembleSurahs
    rw [hm, htail]

theorem assembleSurahs_ok_spec :
    ∀ (ns : List Nat) (meta : Nat → Option SurahMeta) (fetch : Nat → List Verse)
      (l : List Surah),
      assembleSurahs meta fetch ns = Except.ok l →
      l.map Surah.number = ns
      ∧ ∀ s ∈ l,
          meta s.number =
            some ⟨s.nameArabic, s.nameTransliteration, s.nameTranslation,
              s.ayahCount, s.revelation⟩
          ∧ s.ayahs = fetch s.number := by
  intro ns
  induction ns with
  | nil =>
    intro meta fetch l h
    injection h with h2
    subst h2
    exact ⟨rfl, by simp⟩
  | cons n rest ih =>
    intro meta fetch l h
    unfold assembleSurahs at h
    cases hm : meta n with
    | none => rw [hm] at h; exact Except.noConfusion h
    | some m =>
      rw [hm] at h
      cases hr : assembleSurahs meta fetch rest with
      | error e => rw [hr] at h; exact Except.noConfusion h
      | ok tail =>
        rw [hr] at h
        injection h with h2
        subst h2
        obtain ⟨hmap, hmem⟩ := ih meta fetch tail hr
        refine ⟨by simp [hmap], ?_⟩
        intro s hs
        rcases List.mem_cons.mp hs with h0 | h0
        · rw [h0]
          exact ⟨hm, rfl⟩
        · exact hmem s h0

theorem generate_juz_amma_ok (fetch : Nat → List Verse) :
    ∃ l, generate_juz_amma_data fetch = Except.ok l ∧ l.length = 37 := by
  obtain ⟨l, hl, hlen⟩ :=
    assembleSurahs_ok_of_total (List.range' 78 37) SURAH_METADATA fetch (by decide)
  exact ⟨l, hl, by rw [hlen]; decide⟩

/-- C2: a failed network call or an exception inside the per-surah `try`
block makes `fetch_surah_verses` return the empty verse list (never a partial
one, and never an exception, since the function is total), and the assembler
still completes with all 37 surah records for any per-surah results. -/
theorem per_surah_failure_contained :
    (∀ env : FetchEnv, surahTry env = Except.error () → fetch_surah_verses env = [])
    ∧ ∀ fetch : Nat → List Verse,
        ∃ l, generate_juz_amma_data fetch = Except.ok l ∧ l.length = 37 := by
  constructor
  · intro env h
    unfold fetch_surah_verses
    rw [h]
  · exact generate_juz_amma_ok

/-- Environment in which the Arabic call fails. -/
def c2FailEnv : FetchEnv :=
  ⟨Except.error (), Except.ok ⟨some []⟩, Except.ok ⟨some []⟩⟩

theorem per_surah_failure_contained_witness :
    fetch_surah_verses c2FailEnv = [] :=
  per_surah_failure_contained.1 c2FailEnv rfl

/-- Environment whose only response item carries the composite key "103:x",
which contains a colon but whose trailing component is not an integer. -/
def c3BadKeyEnv : FetchEnv :=
  ⟨Except.ok ⟨some [⟨some (strToCodes "103:x"), some (strToCodes "ab")⟩]⟩,
   Except.ok ⟨some []⟩, Except.ok ⟨some []⟩⟩

/-- C3 counterexample: on a response whose single item has the malformed
composite key "103:x", the code does not default the verse number to the
item's 1-based position (which would produce one verse numbered 1); the
`int` call raises and the whole surah takes the failure path, yielding an
empty verse list. -/
theorem verse_number_malformed_counterexample :
    fetch_surah_verses c3BadKeyEnv = []
    ∧ (fetch_surah_verses c3BadKeyEnv).map Verse.number ≠ [1] :=
  ⟨by decide, by decide⟩

/-- C3 amended: the verse number is parsed from the trailing component of the
composite key when the key contains a colon and that component is a valid
integer (so "103:2" yields 2); when the key has no colon the verse number
defaults to the item's 1-based position; but a key that contains a colon with
a non-integer trailing component raises, triggering the whole-surah failure
path (empty verse list) instead of any positional fallback. -/
theorem verse_number_parse_amended :
    (∀ (key : List Nat) (i : Nat) (n : Int), 0x3A ∈ key →
        pyInt (afterLastColon key) = some n → verseNumberOf key i = Except.ok n)
    ∧ (∀ (key : List Nat) (i : Nat), ¬ 0x3A ∈ key →
        verseNumberOf key i = Except.ok (Int.ofNat (i + 1)))
    ∧ verseNumberOf (strToCodes "103:2") 5 = Except.ok 2
    ∧ ∀ (ad : ArabicData) (ee ei : Except Unit TransData) (av : ArabicVerse),
        av ∈ ad.verses.getD [] →
        0x3A ∈ av.verse_key.getD [] →
        pyInt (afterLastColon (av.verse_key.getD [])) = none →
        fetch_surah_verses ⟨Except.ok ad, ee, ei⟩ = [] := by
  refine ⟨?_, ?_, rfl, ?_⟩
  · intro key i n hc hp
    unfold verseNumberOf
    rw [if_pos hc, hp]
  · intro key i hnc
    unfold verseNumberOf
    rw [if_neg hnc]
  · intro ad ee ei av hmem hcol hbad
    cases ee with
    | error e => rfl
    | ok ed =>
      cases ei with
      | error e => rfl
      | ok idn =>
        have hb := buildVersesFrom_error_of_badkey (ad.verses.getD []) 0
          (ed.translations.getD []) (idn.translations.getD []) av hmem hcol hbad
        have hs : surahTry ⟨Except.ok ad, Except.ok ed, Except.ok idn⟩ =
            Except.error () := hb
        unfold fetch_surah_verses
        rw [hs]

theorem verse_number_parse_amended_witness :
    verseNumberOf (strToCodes "abc") 0 = Except.ok (Int.ofNat 1) :=
  verse_number_parse_amended.2.1 (strToCodes "abc") 0 (by decide)

/-- C5: for any per-surah fetch results the Corpus Assembler succeeds and its
`juzAmma` collection holds exactly 37 Surah records, with surah numbers 78
through 114 in ascending order, each record carrying the metadata fields
copied from the static table for its number and the verse sequence the Verse
Fetcher returned for that number. -/
theorem corpus_assembler_output :
    (∀ fetch : Nat → List Verse, ∃ l, generate_juz_amma_data fetch = Except.ok l)
    ∧ ∀ (fetch : Nat → List Verse) (l : List Surah),
        generate_juz_amma_data fetch = Except.ok l →
        l.length = 37
        ∧ l.map Surah.number = List.range' 78 37
        ∧ ∀ s ∈ l,
            SURAH_METADATA s.number =
              some ⟨s.nameArabic, s.nameTransliteration, s.nameTranslation,
                s.ayahCount, s.revelation⟩
            ∧ s.ayahs = fetch s.number := by
  constructor
  · intro fetch
    obtain ⟨l, hl, _⟩ := generate_juz_amma_ok fetch
    exact ⟨l, hl⟩
  · intro fetch l h
    obtain ⟨hmap, hmem⟩ :=
      assembleSurahs_ok_spec (List.range' 78 37) SURAH_METADATA fetch l h
    refine ⟨?_, hmap, hmem⟩
    rw [← List.length_map l Surah.number, hmap]
    decide

/-- The corpus assembled when every surah fetch returns no verses. -/
def sampleCorpus : List Surah :=
  match generate_juz_amma_data (fun _ => []) with
  | Except.ok l => l
  | Except.error _ => []

theorem corpus_assembler_output_witness :
    sampleCorpus.length = 37
    ∧ sampleCorpus.map Surah.number = List.range' 78 37 := by
  have h := corpus_assembler_output.2 (fun _ => []) sampleCorpus rfl
  exact ⟨h.1, h.2.1⟩

/-- C7: the metadata lookup succeeds for every surah number in the fixed
range 78 through 114, and were an entry missing for a number in the iterated
list, the lookup's error branch would abort the whole run (an `error` result)
rather than skip the surah. -/
theorem metadata_complete_and_fatal :
    (∀ n : Nat, 78 ≤ n → n ≤ 114 → (SURAH_METADATA n).isSome = true)
    ∧ ∀ (meta : Nat → Option SurahMeta) (fetch : Nat → List Verse)
        (n : Nat) (rest : List Nat),
        meta n = none → assembleSurahs meta fetch (n :: rest) = Except.error () := by
  constructor
  · intro n h1 h2
    interval_cases n <;> rfl
  · intro meta fetch n rest h
    unfold assembleSurahs
    rw [h]

theorem metadata_complete_and_fatal_witness :
    (SURAH_METADATA 100).isSome = true
    ∧ assembleSurahs (fun _ => none) (fun _ => []) [78] = Except.error () :=
  ⟨metadata_complete_and_fatal.1 100 (by decide) (by decide),
   metadata_complete_and_fatal.2 (fun _ => none) (fun _ => []) 78 [] rfl⟩

/-- C8: every Verse record produced by the Verse Fetcher has an empty
transliteration text, whatever the surah responses were. -/
theorem transliteration_always_empty :
    ∀ (env : FetchEnv) (v : Verse),
      v ∈ fetch_surah_verses env → v.textTransliteration = [] := by
  intro env v hv
  unfold fetch_surah_verses at hv
  cases hs : surahTry env with
  | error e =>
    rw [hs] at hv
    exact absurd hv (List.not_mem_nil v)
  | ok vs =>
    rw [hs] at hv
    exact surahTry_ok_members env vs hs v hv

/-- Environment with a single minimal Arabic response item. -/
def c8Env : FetchEnv :=
  ⟨Except.ok ⟨some [⟨none, none⟩]⟩, Except.ok ⟨some []⟩, Except.ok ⟨some []⟩⟩

theorem transliteration_always_empty_witness :
    (⟨1, [], [], [], []⟩ : Verse).textTransliteration = [] :=
  transliteration_always_empty c8Env ⟨1, [], [], [], []⟩ (by decide)

/-- C9: when the per-surah fetch completes without error, the number of Verse
records equals the length of the Arabic verse list, and at any position at or
beyond the end of the English or Indonesian translation list the
corresponding translation text is the empty string. -/
theorem verse_count_and_padding :
    ∀ (ad : ArabicData) (ed idn : TransData) (vs : List Verse),
      surahTry ⟨Except.ok ad, Except.ok ed, Except.ok idn⟩ = Except.ok vs →
      fetch_surah_verses ⟨Except.ok ad, Except.ok ed, Except.ok idn⟩ = vs
      ∧ vs.length = (ad.verses.getD []).length
      ∧ ∀ (k : Nat) (hk : k < vs.length),
          ((ed.translations.getD []).length ≤ k →
            (vs.get ⟨k, hk⟩).translationEnglish = [])
          ∧ ((idn.translations.getD []).length ≤ k →
            (vs.get ⟨k, hk⟩).translationIndonesian = []) := by
  intro ad ed idn vs h
  have hb : buildVersesFrom 0 (ad.verses.getD [])
      (ed.translations.getD []) (idn.translations.getD []) = Except.ok vs := h
  obtain ⟨hlen, _, hidx⟩ := buildVersesFrom_ok_spec (ad.verses.getD []) 0
    (ed.translations.getD []) (idn.translations.getD []) vs hb
  refine ⟨?_, hlen, ?_⟩
  · unfold fetch_surah_verses
    rw [h]
  · intro k hk
    have hi := hidx k hk
    exact ⟨fun hle => hi.1 (by omega), fun hle => hi.2 (by omega)⟩

theorem verse_count_and_padding_witness :
    fetch_surah_verses
        ⟨Except.ok ⟨some [⟨none, none⟩]⟩, Except.ok ⟨some []⟩, Except.ok ⟨some []⟩⟩ =
      [⟨1, [], [], [], []⟩]
    ∧ ([(⟨1, [], [], [], []⟩ : Verse)]).length =
        ((⟨some [⟨none, none⟩]⟩ : ArabicData).verses.getD []).length := by
  have h := verse_count_and_padding ⟨some [⟨none, none⟩]⟩ ⟨some []⟩ ⟨some []⟩
    [⟨1, [], [], [], []⟩] rfl
  exact ⟨h.1, h.2.1⟩
